import Mathlib

/-!
Verification development for the courier-demand repository.

Two computational cores are embedded here, translated from the source:

* `calculateForecast` from `src/frontend/src/components/DemandForecastChart.tsx`
  (lines 122-231), together with the calendar helpers `isWeekend` (lines 81-85)
  and `filterByDayType` (lines 88-97) it uses.
* the per-day fleet allocation of `calculateFleetRequirements` from the
  FleetDemandForecast component (`src/unnamed/part_005`, lines 180-322).

Numbers: the source is JavaScript, operating on IEEE binary64.  All inputs the
claims quantify over are small integers (package counts, truck counts, day
numbers), for which binary64 arithmetic is exact, so the embedding uses `Nat`
for counts and `Rat` for the fractional intermediate values (`0.6` is exactly
`3/5`, `0.7` is `7/10`, `0.2` is `1/5`, and at the capacities involved the
binary64 roundings of these constants do not cross any integer comparison
boundary).  `Math.sqrt` has no exact rational counterpart, so the forecast
embedding takes the square-root function as an explicit parameter `sqrtFn`;
theorems that depend on it only assume it is nonnegative on nonnegative
arguments, which holds for `Math.sqrt`.  For the one claim about a zero
capacity, where JavaScript produces `Infinity`/`NaN`, a dedicated `JSNum`
type models the special values explicitly.
-/

/-! ### Calendar model

`new Date(year, month - 1, day)` with `1 ≤ month ≤ 12` denotes a proleptic
Gregorian date (for `year ≥ 100`; smaller years are remapped by the `Date`
constructor and never occur in this UI).  `getDay()` returns 0 = Sunday ..
6 = Saturday; day numbers outside the month are normalized by `Date`, which
`jsGetDay` reproduces because the weekday is linear in the day number.
`new Date(year, month, 0).getDate()` is the number of days in `month`. -/

def isLeapYear (year : ℕ) : Bool :=
  year % 4 == 0 && (year % 100 != 0 || year % 400 == 0)

/-- Number of days of month `month` (1..12) of `year`;
models `new Date(year, month, 0).getDate()`. -/
def daysInMonth (year month : ℕ) : ℕ :=
  if month = 2 then (if isLeapYear year then 29 else 28)
  else if month = 4 ∨ month = 6 ∨ month = 9 ∨ month = 11 then 30
  else 31

/-- Day of week of `new Date(year, month - 1, day)` in JavaScript convention
(0 = Sunday .. 6 = Saturday), by the Zeller congruence. -/
def jsGetDay (year month day : ℕ) : ℕ :=
  let m := if month ≤ 2 then month + 12 else month
  let y := if month ≤ 2 then year - 1 else year
  let K := y % 100
  let J := y / 100
  ((day + (13 * (m + 1)) / 5 + K + K / 4 + J / 4 + 5 * J) % 7 + 6) % 7

/-- Source: `isWeekend` in DemandForecastChart.tsx lines 81-85. -/
def isWeekend (year month day : ℕ) : Bool :=
  jsGetDay year month day == 0 || jsGetDay year month day == 6

/-! ### Fleet allocation model (FleetDemandForecast, src/unnamed/part_005) -/

inductive Strategy where
  | cost
  | capacity
deriving DecidableEq, Repr

/-- The `FleetRequirement` record pushed by `calculateFleetRequirements`
(part_005 lines 13-25).  The last three fields are optional in the source and
are absent (`undefined`) on the all-zero record emitted for a day with zero
packages; every consumer reads them through `?? 0` style fallbacks. -/
structure FleetRequirement where
  day : ℕ
  packages : ℕ
  regularTrucks : ℕ
  largeTrucks : ℕ
  totalTrucks : ℕ
  regularCapacity : ℕ
  largeCapacity : ℕ
  totalCapacity : ℕ
  assignedRegularTrucks : Option ℕ
  assignedLargeTrucks : Option ℕ
  remainingPackages : Option ℕ
deriving DecidableEq, Repr

/-- Cost-strategy truck counts (regular, large); part_005 lines 230-257.
The comparison `remainingPackages > regularTruckCapacity * 0.6 ||
regularTruckCost > 1` is kept exactly as written (`regularTruckCost` is the
fractional `remainingPackages / regularTruckCapacity`). -/
def costAlloc (packages regularTruckCapacity largeTruckCapacityMax : ℕ)
    (useLargeTrucks : Bool) : ℕ × ℕ :=
  let regularTrucks := packages / regularTruckCapacity
  let remainingPackages := packages % regularTruckCapacity
  if 0 < remainingPackages then
    if useLargeTrucks && remainingPackages ≤ largeTruckCapacityMax then
      let regularTruckCost : ℚ := (remainingPackages : ℚ) / (regularTruckCapacity : ℚ)
      if (regularTruckCapacity : ℚ) * (6/10) < (remainingPackages : ℚ) ∨ 1 < regularTruckCost then
        (regularTrucks, 1)
      else
        (regularTrucks + 1, 0)
    else
      (regularTrucks + 1, 0)
  else
    (regularTrucks, 0)

/-- Capacity-strategy truck counts (regular, large); part_005 lines 258-277.
`Math.ceil(remainingPackages / regularTruckCapacity)` is the ceiling of the
exact rational quotient. -/
def capacityAlloc (packages regularTruckCapacity largeTruckCapacityMax : ℕ)
    (useLargeTrucks : Bool) : ℕ × ℕ :=
  if useLargeTrucks then
    let largeTrucks := packages / largeTruckCapacityMax
    let remainingPackages := packages % largeTruckCapacityMax
    if 0 < remainingPackages then
      if remainingPackages ≤ regularTruckCapacity then
        (1, largeTrucks)
      else
        (0, largeTrucks + 1)
    else
      (0, largeTrucks)
  else
    ((Int.toNat ⌈(packages : ℚ) / (regularTruckCapacity : ℚ)⌉), 0)

/-- The body of the `dataToProcess.forEach` loop of `calculateFleetRequirements`
(part_005 lines 209-304) for one day: heuristic truck counts, capacities,
manual-override resolution and the clamped deficit.  `manualAssignments` is the
per-day override map (`Record<number, {regular, large}>`). -/
def calculateDayRequirement (day packages : ℕ) (strategy : Strategy)
    (useLargeTrucks : Bool) (regularTruckCapacity largeTruckCapacityMax : ℕ)
    (manualAssignments : ℕ → Option (ℕ × ℕ)) : FleetRequirement :=
  if packages = 0 then
    { day := day, packages := 0, regularTrucks := 0, largeTrucks := 0,
      totalTrucks := 0, regularCapacity := 0, largeCapacity := 0,
      totalCapacity := 0, assignedRegularTrucks := none,
      assignedLargeTrucks := none, remainingPackages := none }
  else
    let counts := match strategy with
      | .cost => costAlloc packages regularTruckCapacity largeTruckCapacityMax useLargeTrucks
      | .capacity => capacityAlloc packages regularTruckCapacity largeTruckCapacityMax useLargeTrucks
    let regularTrucks := counts.1
    let largeTrucks := counts.2
    let regularCapacity := regularTrucks * regularTruckCapacity
    let largeCapacity := largeTrucks * largeTruckCapacityMax
    let totalCapacity := regularCapacity + largeCapacity
    let totalTrucks := regularTrucks + largeTrucks
    let assignedRegularTrucks := match manualAssignments day with
      | some manual => manual.1
      | none => regularTrucks
    let assignedLargeTrucks := match manualAssignments day with
      | some manual => manual.2
      | none => largeTrucks
    let assignedCapacity :=
      assignedRegularTrucks * regularTruckCapacity + assignedLargeTrucks * largeTruckCapacityMax
    { day := day, packages := packages, regularTrucks := regularTrucks,
      largeTrucks := largeTrucks, totalTrucks := totalTrucks,
      regularCapacity := regularCapacity, largeCapacity := largeCapacity,
      totalCapacity := totalCapacity,
      assignedRegularTrucks := some assignedRegularTrucks,
      assignedLargeTrucks := some assignedLargeTrucks,
      remainingPackages := some (packages - assignedCapacity) }

/-- One forecast-day input of the fleet component (`DailyForecastData`,
part_005 lines 6-11); `forecast` is optional and read as `forecast || 0`. -/
structure DailyForecastData where
  day : ℕ
  forecast : Option ℕ
deriving DecidableEq, Repr

/-- The requirements list built by `calculateFleetRequirements`
(part_005 lines 209-305) over the processed forecast data. -/
def calculateFleetRequirements (dataToProcess : List DailyForecastData)
    (strategy : Strategy) (useLargeTrucks : Bool)
    (regularTruckCapacity largeTruckCapacityMax : ℕ)
    (manualAssignments : ℕ → Option (ℕ × ℕ)) : List FleetRequirement :=
  dataToProcess.map (fun dayData =>
    calculateDayRequirement dayData.day (dayData.forecast.getD 0) strategy
      useLargeTrucks regularTruckCapacity largeTruckCapacityMax manualAssignments)

/-- Spec-side variant of `costAlloc` for the refinement claim: the remainder
branch keeps only the condition `remainder > 0.6 * regularCapacity`, dropping
the disjunct `regularTruckCost > 1` that the spec flags as dead code. -/
def costAllocSimplified (packages regularTruckCapacity largeTruckCapacityMax : ℕ)
    (useLargeTrucks : Bool) : ℕ × ℕ :=
  let regularTrucks := packages / regularTruckCapacity
  let remainingPackages := packages % regularTruckCapacity
  if 0 < remainingPackages then
    if useLargeTrucks && remainingPackages ≤ largeTruckCapacityMax then
      if (regularTruckCapacity : ℚ) * (6/10) < (remainingPackages : ℚ) then
        (regularTrucks, 1)
      else
        (regularTrucks + 1, 0)
    else
      (regularTrucks + 1, 0)
  else
    (regularTrucks, 0)

/-! ### Forecast model (calculateForecast, DemandForecastChart.tsx lines 122-231) -/

/-- One historical observation (`DailyData` of DemandForecastChart.tsx): a day
of the month and the package count of that day. -/
structure DailyData where
  day : ℕ
  value : ℚ
deriving DecidableEq, Repr

/-- The `{year, month}` metadata attached to a historical batch. -/
structure MonthMeta where
  year : ℕ
  month : ℕ
deriving DecidableEq, Repr

inductive DayTypeFilter where
  | all
  | weekday
  | weekend
deriving DecidableEq, Repr

/-- Source: `filterByDayType` in DemandForecastChart.tsx lines 88-97. -/
def filterByDayType (data : List DailyData) (year month : ℕ)
    (filter : DayTypeFilter) : List DailyData :=
  match filter with
  | .all => data
  | .weekend => data.filter (fun d => isWeekend year month d.day)
  | .weekday => data.filter (fun d => !isWeekend year month d.day)

/-- Whether the target-month day `day` survives the `continue` guards of the
forecast loop (lines 203-204). -/
def matchesDayType (filter : DayTypeFilter) (year month day : ℕ) : Bool :=
  match filter with
  | .all => true
  | .weekend => isWeekend year month day
  | .weekday => !isWeekend year month day

/-- Lines 138-144: each historical month is day-type filtered using its own
metadata when `historicalMeta[idx]` exists, and passed through unchanged
otherwise. -/
def filteredHistoricalOf (historical : List (List DailyData))
    (historicalMeta : List MonthMeta) (filter : DayTypeFilter) :
    List (List DailyData) :=
  match historical, historicalMeta with
  | [], _ => []
  | monthData :: hs, [] => monthData :: hs
  | monthData :: hs, meta :: ms =>
      filterByDayType monthData meta.year meta.month filter ::
        filteredHistoricalOf hs ms filter

/-- Line 147: all positive values across the filtered historical months. -/
def allValuesOf (historical : List (List DailyData))
    (historicalMeta : List MonthMeta) (filter : DayTypeFilter) : List ℚ :=
  (((filteredHistoricalOf historical historicalMeta filter).flatten).map
    (fun d => d.value)).filter (fun v => decide (0 < v))

/-- Lines 148-150. -/
def overallAverageOf (historical : List (List DailyData))
    (historicalMeta : List MonthMeta) (filter : DayTypeFilter) : ℚ :=
  let allValues := allValuesOf historical historicalMeta filter
  if 0 < allValues.length then allValues.sum / (allValues.length : ℚ) else 0

/-- Lines 153-156: per-month average of the positive values. -/
def monthlyAveragesOf (historical : List (List DailyData))
    (historicalMeta : List MonthMeta) (filter : DayTypeFilter) : List ℚ :=
  (filteredHistoricalOf historical historicalMeta filter).map (fun monthData =>
    let values := (monthData.map (fun d => d.value)).filter (fun v => decide (0 < v))
    if 0 < values.length then values.sum / (values.length : ℚ) else 0)

/-- The fold `reduce((sum, val, idx) => sum + (idx + 1) * val, 0)` of line 163,
started at index `i`. -/
def weightedSumFrom (i : ℕ) : List ℚ → ℚ
  | [] => 0
  | v :: vs => ((i : ℚ) + 1) * v + weightedSumFrom (i + 1) vs

/-- Lines 158-167: slope of the least-squares line through the monthly
averages (0 when fewer than two months). -/
def trendOf (historical : List (List DailyData))
    (historicalMeta : List MonthMeta) (filter : DayTypeFilter) : ℚ :=
  let monthlyAverages := monthlyAveragesOf historical historicalMeta filter
  if 1 < monthlyAverages.length then
    let n : ℚ := (monthlyAverages.length : ℚ)
    let sumX := n * (n + 1) / 2
    let sumY := monthlyAverages.sum
    let sumXY := weightedSumFrom 0 monthlyAverages
    let sumXX := n * (n + 1) * (2 * n + 1) / 6
    (n * sumXY - sumX * sumY) / (n * sumXX - sumX * sumX)
  else 0

/-- Positive values of one filtered month that fall on weekday `dow` of that
month (the pushes of lines 174-183 for a single `monthData`). -/
def dowMonthValues (dow : ℕ) (monthData : List DailyData)
    (meta : MonthMeta) : List ℚ :=
  monthData.filterMap (fun d =>
    if jsGetDay meta.year meta.month d.day = dow ∧ 0 < d.value
    then some d.value else none)

/-- Lines 170-185: the values pushed for one day-of-week key.  Only months
with metadata contribute (`if (meta)` guard); a value is pushed only when it
is positive. -/
def dayOfWeekValuesOf (historical : List (List DailyData))
    (historicalMeta : List MonthMeta) (filter : DayTypeFilter)
    (dow : ℕ) : List ℚ :=
  (((filteredHistoricalOf historical historicalMeta filter).zip
      historicalMeta).map (fun p => dowMonthValues dow p.1 p.2)).flatten

/-- Whether the key `dow` was created in `dayOfWeekPatterns` (lines 176-179):
some entry of a metadata-bearing month falls on that weekday, regardless of
its value. -/
def dayOfWeekHasKey (historical : List (List DailyData))
    (historicalMeta : List MonthMeta) (filter : DayTypeFilter)
    (dow : ℕ) : Bool :=
  ((filteredHistoricalOf historical historicalMeta filter).zip
      historicalMeta).any (fun p =>
    p.1.any (fun d => jsGetDay p.2.year p.2.month d.day == dow))

/-- Lines 188-194: the per-weekday average, falling back to the overall
average when the key exists with no positive values. -/
def dayOfWeekAverageOf (historical : List (List DailyData))
    (historicalMeta : List MonthMeta) (filter : DayTypeFilter)
    (dow : ℕ) : ℚ :=
  let values := dayOfWeekValuesOf historical historicalMeta filter dow
  if 0 < values.length then values.sum / (values.length : ℚ)
  else overallAverageOf historical historicalMeta filter

/-- Line 207: overall average plus the trend projected one step past the
historical window. -/
def baseForecastOf (historical : List (List DailyData))
    (historicalMeta : List MonthMeta) (filter : DayTypeFilter) : ℚ :=
  overallAverageOf historical historicalMeta filter +
    trendOf historical historicalMeta filter *
      (((filteredHistoricalOf historical historicalMeta filter).length : ℚ) + 1)

/-- Lines 209-214: the base forecast, blended 70/30 with the day-of-week
average when `dayOfWeekAverages[dayOfWeek]` is truthy (the key exists and the
stored average is nonzero). -/
def forecastValueAt (historical : List (List DailyData))
    (historicalMeta : List MonthMeta) (filter : DayTypeFilter)
    (targetYear targetMonth day : ℕ) : ℚ :=
  let dow := jsGetDay targetYear targetMonth day
  let baseForecast := baseForecastOf historical historicalMeta filter
  if dayOfWeekHasKey historical historicalMeta filter dow = true ∧
      dayOfWeekAverageOf historical historicalMeta filter dow ≠ 0 then
    dayOfWeekAverageOf historical historicalMeta filter dow * (7/10) +
      baseForecast * (3/10)
  else baseForecast

/-- Lines 216-219: sample standard deviation (via the supplied square root)
when at least two positive values exist, otherwise 20% of the overall
average. -/
def stdDevOf (sqrtFn : ℚ → ℚ) (historical : List (List DailyData))
    (historicalMeta : List MonthMeta) (filter : DayTypeFilter) : ℚ :=
  let allValues := allValuesOf historical historicalMeta filter
  let overallAverage := overallAverageOf historical historicalMeta filter
  if 1 < allValues.length then
    sqrtFn (((allValues.map (fun v => (v - overallAverage) ^ 2)).sum) /
      (allValues.length : ℚ))
  else overallAverage * (1/5)

/-- JavaScript `Math.round`: round half toward positive infinity. -/
def jsRound (x : ℚ) : ℤ := ⌊x + 1/2⌋

/-- A point pushed by the forecast loop (lines 221-227).  The three forecast
fields are `Math.max(0, Math.round(...))`, hence natural numbers. -/
structure ForecastPoint where
  day : ℕ
  value : ℚ
  forecast : ℕ
  forecastMin : ℕ
  forecastMax : ℕ
deriving DecidableEq, Repr

/-- Lines 221-227 for one emitted day. -/
def mkForecastPoint (day : ℕ) (forecastValue stdDev : ℚ) : ForecastPoint :=
  { day := day
    value := 0
    forecast := (jsRound forecastValue).toNat
    forecastMin := (jsRound (forecastValue - stdDev)).toNat
    forecastMax := (jsRound (forecastValue + stdDev)).toNat }

/-- Source: `calculateForecast` in DemandForecastChart.tsx lines 122-231.
Empty historical input returns the empty list (line 129); otherwise one point
is emitted, in increasing day order, for each day of the target month that
passes the day-type guards. -/
def calculateForecast (sqrtFn : ℚ → ℚ) (historical : List (List DailyData))
    (historicalMeta : List MonthMeta) (filter : DayTypeFilter)
    (targetYear targetMonth : ℕ) : List ForecastPoint :=
  if historical.isEmpty then []
  else
    ((List.range' 1 (daysInMonth targetYear targetMonth)).filter
      (fun day => matchesDayType filter targetYear targetMonth day)).map
      (fun day =>
        mkForecastPoint day
          (forecastValueAt historical historicalMeta filter
            targetYear targetMonth day)
          (stdDevOf sqrtFn historical historicalMeta filter))

/-! ### JavaScript number semantics for the zero-capacity configuration

The `Nat`/`Rat` embedding above is exact only for positive capacities.  To
settle what the source does when `regularTruckCapacity = 0`, the special
values of IEEE binary64 are modelled explicitly: finite values are kept as
exact rationals (every operation performed at the inputs of interest is exact
in binary64), plus `Infinity`, `-Infinity` and `NaN` with the JavaScript
propagation rules.  Negative zero is not distinguished. -/

inductive JSNum where
  | num (q : ℚ)
  | inf
  | negInf
  | nan
deriving DecidableEq, Repr

/-- JavaScript division, including `x / 0`. -/
def jsDiv : JSNum → JSNum → JSNum
  | .nan, _ => .nan
  | _, .nan => .nan
  | .num a, .num b =>
      if b = 0 then (if a = 0 then .nan else if 0 < a then .inf else .negInf)
      else .num (a / b)
  | .num _, .inf => .num 0
  | .num _, .negInf => .num 0
  | .inf, .num b => if 0 ≤ b then .inf else .negInf
  | .negInf, .num b => if 0 ≤ b then .negInf else .inf
  | .inf, .inf => .nan
  | .inf, .negInf => .nan
  | .negInf, .inf => .nan
  | .negInf, .negInf => .nan

/-- Truncation toward zero, as used by the JavaScript `%` operator. -/
def jsTrunc (x : ℚ) : ℤ := if 0 ≤ x then ⌊x⌋ else ⌈x⌉

/-- JavaScript remainder `a % b` (`x % 0` is `NaN`, `x % ±Infinity` is `x`). -/
def jsMod : JSNum → JSNum → JSNum
  | .nan, _ => .nan
  | _, .nan => .nan
  | .num a, .num b =>
      if b = 0 then .nan else .num (a - b * (jsTrunc (a / b) : ℚ))
  | .num a, .inf => .num a
  | .num a, .negInf => .num a
  | .inf, _ => .nan
  | .negInf, _ => .nan

/-- JavaScript `Math.floor` (`Math.floor(±Infinity) = ±Infinity`). -/
def jsFloor : JSNum → JSNum
  | .num a => .num ⌊a⌋
  | .inf => .inf
  | .negInf => .negInf
  | .nan => .nan

/-- JavaScript multiplication (`±Infinity * 0 = NaN`). -/
def jsMul : JSNum → JSNum → JSNum
  | .nan, _ => .nan
  | _, .nan => .nan
  | .num a, .num b => .num (a * b)
  | .num a, .inf => if a = 0 then .nan else if 0 < a then .inf else .negInf
  | .inf, .num b => if b = 0 then .nan else if 0 < b then .inf else .negInf
  | .num a, .negInf => if a = 0 then .nan else if 0 < a then .negInf else .inf
  | .negInf, .num b => if b = 0 then .nan else if 0 < b then .negInf else .inf
  | .inf, .inf => .inf
  | .negInf, .negInf => .inf
  | .inf, .negInf => .negInf
  | .negInf, .inf => .negInf

/-- JavaScript addition (`Infinity + (-Infinity) = NaN`). -/
def jsAdd : JSNum → JSNum → JSNum
  | .nan, _ => .nan
  | _, .nan => .nan
  | .num a, .num b => .num (a + b)
  | .num _, .inf => .inf
  | .inf, .num _ => .inf
  | .inf, .inf => .inf
  | .num _, .negInf => .negInf
  | .negInf, .num _ => .negInf
  | .negInf, .negInf => .negInf
  | .inf, .negInf => .nan
  | .negInf, .inf => .nan

/-- JavaScript `>` (false whenever an operand is `NaN`). -/
def jsGtb : JSNum → JSNum → Bool
  | .nan, _ => false
  | _, .nan => false
  | .num a, .num b => decide (b < a)
  | .inf, .inf => false
  | .inf, _ => true
  | _, .inf => false
  | .negInf, _ => false
  | .num _, .negInf => true

/-- JavaScript `<=` (false whenever an operand is `NaN`). -/
def jsLeb : JSNum → JSNum → Bool
  | .nan, _ => false
  | _, .nan => false
  | .num a, .num b => decide (a ≤ b)
  | .negInf, _ => true
  | _, .negInf => false
  | _, .inf => true
  | .inf, _ => false

/-- The cost-strategy branch of `calculateFleetRequirements`
(part_005 lines 230-257), executed in JavaScript number semantics: the truck
counters start as JS numbers and no input validation is performed anywhere in
the component.  Returns (regularTrucks, largeTrucks). -/
def jsCostAlloc (packages regularTruckCapacity largeTruckCapacityMax : JSNum)
    (useLargeTrucks : Bool) : JSNum × JSNum :=
  let regularTrucks := jsFloor (jsDiv packages regularTruckCapacity)
  let remainingPackages := jsMod packages regularTruckCapacity
  if jsGtb remainingPackages (.num 0) then
    if useLargeTrucks && jsLeb remainingPackages largeTruckCapacityMax then
      let regularTruckCost := jsDiv remainingPackages regularTruckCapacity
      if jsGtb remainingPackages (jsMul regularTruckCapacity (.num (6/10))) ||
          jsGtb regularTruckCost (.num 1) then
        (regularTrucks, .num 1)
      else
        (jsAdd regularTrucks (.num 1), .num 0)
    else
      (jsAdd regularTrucks (.num 1), .num 0)
  else
    (regularTrucks, .num 0)

/-! ### Helper lemmas -/

/-- With a positive regular capacity the fractional `regularTruckCost` of the
cost strategy is below one. -/
theorem regularTruckCost_lt_one (p rc : ℕ) (hrc : 0 < rc) :
    ((p % rc : ℕ) : ℚ) / (rc : ℚ) < 1 := by
  rw [div_lt_one (by exact_mod_cast hrc)]
  exact_mod_cast Nat.mod_lt p hrc

/-- The dead disjunct of the cost strategy can be dropped. -/
theorem costAlloc_eq_costAllocSimplified (p rc lcm : ℕ) (ul : Bool)
    (hrc : 0 < rc) :
    costAlloc p rc lcm ul = costAllocSimplified p rc lcm ul := by
  have hB : ¬ (1 < ((p % rc : ℕ) : ℚ) / (rc : ℚ)) :=
    not_lt.mpr (regularTruckCost_lt_one p rc hrc).le
  simp only [costAlloc, costAllocSimplified]
  simp [hB]

/-- The cost-strategy recommendation always covers the demand. -/
theorem costAlloc_covers (p rc lcm : ℕ) (ul : Bool) (hrc : 0 < rc) :
    p ≤ (costAlloc p rc lcm ul).1 * rc + (costAlloc p rc lcm ul).2 * lcm := by
  have hdm := Nat.div_add_mod p rc
  have hlt := Nat.mod_lt p hrc
  simp only [costAlloc]
  split_ifs with h1 h2 h3
  · have hle : p % rc ≤ lcm := by
      simp only [Bool.and_eq_true, decide_eq_true_eq] at h2
      exact h2.2
    show p ≤ p / rc * rc + 1 * lcm
    calc p = rc * (p / rc) + p % rc := hdm.symm
    _ ≤ rc * (p / rc) + lcm := Nat.add_le_add_left hle _
    _ = p / rc * rc + 1 * lcm := by ring
  · show p ≤ (p / rc + 1) * rc + 0 * lcm
    calc p = rc * (p / rc) + p % rc := hdm.symm
    _ ≤ rc * (p / rc) + rc := Nat.add_le_add_left hlt.le _
    _ = (p / rc + 1) * rc + 0 * lcm := by ring
  · show p ≤ (p / rc + 1) * rc + 0 * lcm
    calc p = rc * (p / rc) + p % rc := hdm.symm
    _ ≤ rc * (p / rc) + rc := Nat.add_le_add_left hlt.le _
    _ = (p / rc + 1) * rc + 0 * lcm := by ring
  · have h0 : p % rc = 0 := by omega
    show p ≤ p / rc * rc + 0 * lcm
    rw [Nat.div_mul_cancel (Nat.dvd_of_mod_eq_zero h0)]
    omega

/-- The capacity-strategy recommendation always covers the demand. -/
theorem capacityAlloc_covers (p rc lcm : ℕ) (ul : Bool) (hrc : 0 < rc)
    (hlcm : 0 < lcm) :
    p ≤ (capacityAlloc p rc lcm ul).1 * rc + (capacityAlloc p rc lcm ul).2 * lcm := by
  have hdm := Nat.div_add_mod p lcm
  have hlt := Nat.mod_lt p hlcm
  simp only [capacityAlloc]
  split_ifs with hul h1 h2
  · show p ≤ 1 * rc + p / lcm * lcm
    calc p = lcm * (p / lcm) + p % lcm := hdm.symm
    _ ≤ lcm * (p / lcm) + rc := Nat.add_le_add_left h2 _
    _ = 1 * rc + p / lcm * lcm := by ring
  · show p ≤ 0 * rc + (p / lcm + 1) * lcm
    calc p = lcm * (p / lcm) + p % lcm := hdm.symm
    _ ≤ lcm * (p / lcm) + lcm := Nat.add_le_add_left hlt.le _
    _ = 0 * rc + (p / lcm + 1) * lcm := by ring
  · have h0 : p % lcm = 0 := by omega
    show p ≤ 0 * rc + p / lcm * lcm
    rw [Nat.div_mul_cancel (Nat.dvd_of_mod_eq_zero h0)]
    omega
  · show p ≤ (Int.toNat ⌈(p : ℚ) / (rc : ℚ)⌉) * rc + 0 * lcm
    have h0 : (0 : ℚ) < (rc : ℚ) := by exact_mod_cast hrc
    have hle : ((p : ℚ) / rc) ≤ (⌈(p : ℚ) / rc⌉ : ℚ) := Int.le_ceil _
    have hq : (p : ℚ) ≤ (⌈(p : ℚ) / rc⌉ : ℚ) * rc := (div_le_iff₀ h0).mp hle
    have hnn : 0 ≤ ⌈(p : ℚ) / rc⌉ := Int.ceil_nonneg (by positivity)
    have hcast : ((Int.toNat ⌈(p : ℚ) / rc⌉ : ℕ) : ℚ) = (⌈(p : ℚ) / rc⌉ : ℚ) := by
      exact_mod_cast Int.toNat_of_nonneg hnn
    have : (p : ℚ) ≤ ((Int.toNat ⌈(p : ℚ) / rc⌉ : ℕ) : ℚ) * rc := by
      rw [hcast]; exact hq
    have hfin : p ≤ Int.toNat ⌈(p : ℚ) / rc⌉ * rc := by exact_mod_cast this
    omega

/-! ### Claims -/

/-- C1: the claim says a configuration with `regularCapacity = 0` is rejected
with an InvalidConfiguration error and never yields degenerate truck counts.
The component performs no validation at all: running the cost branch in
JavaScript number semantics on `packages = 500`, `regularTruckCapacity = 0`
returns a result record with `regularTrucks = Infinity` (the remainder is
`NaN`, so no further truck is added).  This theorem evaluates the code at the
failing input; it witnesses that the source contradicts the
input-validation requirement stated in the spec (the spec itself notes the original lacked it). -/
theorem c1_zero_capacity_yields_infinity_not_error :
    jsCostAlloc (JSNum.num 500) (JSNum.num 0) (JSNum.num 2800) true
      = (JSNum.inf, JSNum.num 0) := by
  norm_num [jsCostAlloc, jsDiv, jsMod, jsFloor, jsGtb]

/-- C9: in the cost strategy the branch condition
`remainder > 0.6 * regularCapacity || remainder / regularCapacity > 1` is
equivalent to its first disjunct alone: the fractional cost
`remainder / regularCapacity` is always below one because
`remainder = packages % regularCapacity < regularCapacity`, so the allocation
computed with the simplified condition is extensionally equal to the
allocation as written. -/
theorem c9_cost_condition_dead_disjunct (p rc lcm : ℕ) (ul : Bool)
    (hrc : 0 < rc) :
    ((p % rc : ℕ) : ℚ) / (rc : ℚ) < 1 ∧
      costAlloc p rc lcm ul = costAllocSimplified p rc lcm ul :=
  ⟨regularTruckCost_lt_one p rc hrc,
    costAlloc_eq_costAllocSimplified p rc lcm ul hrc⟩

/-- Witness for C9 at `packages = 3000`, `regularCapacity = 2200`. -/
theorem c9_witness :
    0 < 2200 ∧
      (((3000 % 2200 : ℕ) : ℚ) / (2200 : ℚ) < 1 ∧
        costAlloc 3000 2200 2800 true = costAllocSimplified 3000 2200 2800 true) :=
  ⟨by decide, c9_cost_condition_dead_disjunct 3000 2200 2800 true (by decide)⟩

/-- C5: characterization of the cost strategy for a day with positive packages
and positive regular capacity: `regularTrucks` starts at
`floor(packages / regularCapacity)` with `remainder = packages mod
regularCapacity`; a positive remainder adds one large truck exactly when large
trucks are enabled, the remainder fits in `largeCapacityMax` and the remainder
exceeds `0.6 * regularCapacity`, and one more regular truck otherwise; with
large trucks disabled (or a remainder above `largeCapacityMax`) one more
regular truck is added.  The two scenario instances of the claim are included:
`packages = 3000` gives `(regular, large) = (2, 0)`, total capacity 4400 and
zero remaining, and `packages = 2200` gives `(1, 0)` with zero remainder. -/
theorem c5_cost_strategy_characterization (p rc lcm : ℕ) (ul : Bool)
    (hp : 0 < p) (hrc : 0 < rc) :
    (p % rc = 0 → costAlloc p rc lcm ul = (p / rc, 0)) ∧
    (0 < p % rc → ul = true → p % rc ≤ lcm →
      (((rc : ℚ) * (6/10) < ((p % rc : ℕ) : ℚ) →
        costAlloc p rc lcm ul = (p / rc, 1)) ∧
       (¬ ((rc : ℚ) * (6/10) < ((p % rc : ℕ) : ℚ)) →
        costAlloc p rc lcm ul = (p / rc + 1, 0)))) ∧
    (0 < p % rc → (ul = false ∨ lcm < p % rc) →
      costAlloc p rc lcm ul = (p / rc + 1, 0)) ∧
    costAlloc 3000 2200 2800 true = (2, 0) ∧
    (calculateDayRequirement 1 3000 Strategy.cost true 2200 2800
      (fun _ => none)).totalCapacity = 4400 ∧
    (calculateDayRequirement 1 3000 Strategy.cost true 2200 2800
      (fun _ => none)).remainingPackages = some 0 ∧
    costAlloc 2200 2200 2800 true = (1, 0) ∧ 2200 % 2200 = 0 := by
  rw [costAlloc_eq_costAllocSimplified p rc lcm ul hrc]
  refine ⟨?_, ?_, ?_, ?_, ?_, ?_, ?_, ?_⟩
  · intro h0
    simp [costAllocSimplified, h0]
  · intro hr hul hle
    constructor
    · intro hcond
      simp [costAllocSimplified, hr, hul, hle, hcond]
    · intro hcond
      simp [costAllocSimplified, hr, hul, hle, hcond]
  · intro hr hcase
    rcases hcase with h | h
    · simp [costAllocSimplified, hr, h]
    · simp [costAllocSimplified, hr, Nat.not_le.mpr h]
  · norm_num [costAlloc]
  · have h : costAlloc 3000 2200 2800 true = (2, 0) := by norm_num [costAlloc]
    simp [calculateDayRequirement, h]
  · have h : costAlloc 3000 2200 2800 true = (2, 0) := by norm_num [costAlloc]
    simp [calculateDayRequirement, h]
  · decide
  · decide

/-- Witness for C5 at the scenario input of the claim. -/
theorem c5_witness :
    0 < 3000 ∧ 0 < 2200 ∧
      (3000 % 2200 = 0 → costAlloc 3000 2200 2800 true = (3000 / 2200, 0)) :=
  ⟨by decide, by decide,
    (c5_cost_strategy_characterization 3000 2200 2800 true (by decide)
      (by decide)).1⟩

/-- C6: characterization of the capacity strategy for a day with positive
packages and positive capacities.  With large trucks enabled,
`largeTrucks = floor(packages / largeCapacityMax)` and
`remainder = packages mod largeCapacityMax`; a positive remainder uses exactly
one regular truck when it fits in `regularCapacity` and one more large truck
otherwise.  With large trucks disabled the count is
`ceil(packages / regularCapacity)` regular trucks and no large truck. -/
theorem c6_capacity_strategy_characterization (p rc lcm : ℕ) (ul : Bool)
    (hp : 0 < p) (hrc : 0 < rc) (hlcm : 0 < lcm) :
    (ul = true →
      (p % lcm = 0 → capacityAlloc p rc lcm ul = (0, p / lcm)) ∧
      (0 < p % lcm → p % lcm ≤ rc → capacityAlloc p rc lcm ul = (1, p / lcm)) ∧
      (0 < p % lcm → rc < p % lcm →
        capacityAlloc p rc lcm ul = (0, p / lcm + 1))) ∧
    (ul = false →
      capacityAlloc p rc lcm ul = (Int.toNat ⌈(p : ℚ) / (rc : ℚ)⌉, 0)) := by
  constructor
  · intro hul
    refine ⟨?_, ?_, ?_⟩
    · intro h0
      simp [capacityAlloc, hul, h0]
    · intro hr hle
      simp [capacityAlloc, hul, hr, hle]
    · intro hr hgt
      simp [capacityAlloc, hul, hr, Nat.not_le.mpr hgt]
  · intro hul
    simp [capacityAlloc, hul]

/-- Witness for C6 at `packages = 3000`, capacities 2200/2800,
large trucks enabled (remainder 200 fits in a regular truck). -/
theorem c6_witness :
    0 < 3000 ∧ 0 < 2200 ∧ 0 < 2800 ∧ 0 < 3000 % 2800 ∧ 3000 % 2800 ≤ 2200 ∧
      capacityAlloc 3000 2200 2800 true = (1, 3000 / 2800) :=
  ⟨by decide, by decide, by decide, by decide, by decide,
    ((c6_capacity_strategy_characterization 3000 2200 2800 true (by decide)
      (by decide) (by decide)).1 rfl).2.1 (by decide) (by decide)⟩

/-- C7: a forecast day with zero packages yields the all-zero requirement
regardless of strategy, the large-truck toggle and any override: every truck
and capacity field is 0, and the optional assigned/remaining fields are
absent (`undefined` in the source), which every consumer reads as 0 (modelled
by `Option.getD 0`). -/
theorem c7_zero_packages_all_zero (day : ℕ) (strategy : Strategy) (ul : Bool)
    (rc lcm : ℕ) (manualAssignments : ℕ → Option (ℕ × ℕ)) :
    (calculateDayRequirement day 0 strategy ul rc lcm manualAssignments).packages = 0 ∧
    (calculateDayRequirement day 0 strategy ul rc lcm manualAssignments).regularTrucks = 0 ∧
    (calculateDayRequirement day 0 strategy ul rc lcm manualAssignments).largeTrucks = 0 ∧
    (calculateDayRequirement day 0 strategy ul rc lcm manualAssignments).totalTrucks = 0 ∧
    (calculateDayRequirement day 0 strategy ul rc lcm manualAssignments).regularCapacity = 0 ∧
    (calculateDayRequirement day 0 strategy ul rc lcm manualAssignments).largeCapacity = 0 ∧
    (calculateDayRequirement day 0 strategy ul rc lcm manualAssignments).totalCapacity = 0 ∧
    (calculateDayRequirement day 0 strategy ul rc lcm
      manualAssignments).assignedRegularTrucks.getD 0 = 0 ∧
    (calculateDayRequirement day 0 strategy ul rc lcm
      manualAssignments).assignedLargeTrucks.getD 0 = 0 ∧
    (calculateDayRequirement day 0 strategy ul rc lcm
      manualAssignments).remainingPackages.getD 0 = 0 := by
  simp [calculateDayRequirement]

/-- C2: for a day with positive packages, positive capacities and any override
map, the emitted requirement resolves the assigned truck counts to the
override when present and the heuristic recommendation otherwise, and its
`remainingPackages` is the clamped deficit
`max(0, packages - assignedCapacity)`; consequently
`assignedCapacity + remainingPackages ≥ packages` and `remainingPackages = 0`
whenever `assignedCapacity ≥ packages`.  The scenario of the claim is included: an
override of (0 regular, 0 large) on a day with 500 packages surfaces the full
deficit of 500. -/
theorem c2_remaining_is_clamped_deficit (day p : ℕ) (strategy : Strategy)
    (ul : Bool) (rc lcm : ℕ) (manualAssignments : ℕ → Option (ℕ × ℕ))
    (hp : 0 < p) (hrc : 0 < rc) (hlcm : 0 < lcm) :
    ((calculateDayRequirement day p strategy ul rc lcm
        manualAssignments).assignedRegularTrucks =
      some ((manualAssignments day).elim
        (calculateDayRequirement day p strategy ul rc lcm
          manualAssignments).regularTrucks Prod.fst)) ∧
    ((calculateDayRequirement day p strategy ul rc lcm
        manualAssignments).assignedLargeTrucks =
      some ((manualAssignments day).elim
        (calculateDayRequirement day p strategy ul rc lcm
          manualAssignments).largeTrucks Prod.snd)) ∧
    (((calculateDayRequirement day p strategy ul rc lcm
        manualAssignments).remainingPackages.getD 0 : ℤ) =
      max 0 ((p : ℤ) -
        ((calculateDayRequirement day p strategy ul rc lcm
            manualAssignments).assignedRegularTrucks.getD 0 * rc +
         (calculateDayRequirement day p strategy ul rc lcm
            manualAssignments).assignedLargeTrucks.getD 0 * lcm))) ∧
    (p ≤ (calculateDayRequirement day p strategy ul rc lcm
            manualAssignments).assignedRegularTrucks.getD 0 * rc +
         (calculateDayRequirement day p strategy ul rc lcm
            manualAssignments).assignedLargeTrucks.getD 0 * lcm +
         (calculateDayRequirement day p strategy ul rc lcm
            manualAssignments).remainingPackages.getD 0) ∧
    ((calculateDayRequirement day p strategy ul rc lcm
        manualAssignments).assignedRegularTrucks.getD 0 * rc +
      (calculateDayRequirement day p strategy ul rc lcm
        manualAssignments).assignedLargeTrucks.getD 0 * lcm ≥ p →
      (calculateDayRequirement day p strategy ul rc lcm
        manualAssignments).remainingPackages.getD 0 = 0) ∧
    (calculateDayRequirement 7 500 Strategy.cost true 2200 2800
      (fun _ => some (0, 0))).remainingPackages = some 500 := by
  have hne : ¬ (p = 0) := by omega
  have hconc : (calculateDayRequirement 7 500 Strategy.cost true 2200 2800
      (fun _ => some (0, 0))).remainingPackages = some 500 := by
    have h : costAlloc 500 2200 2800 true = (1, 0) := by norm_num [costAlloc]
    simp [calculateDayRequirement, h]
  rcases hm : manualAssignments day with _ | pair
  · refine ⟨?_, ?_, ?_, ?_, ?_, hconc⟩ <;>
      simp [calculateDayRequirement, hne, hm] <;> omega
  · refine ⟨?_, ?_, ?_, ?_, ?_, hconc⟩ <;>
      simp [calculateDayRequirement, hne, hm] <;> omega

/-- Witness for C2 at the scenario input of the claim. -/
theorem c2_witness :
    0 < 500 ∧ 0 < 2200 ∧ 0 < 2800 ∧
      (calculateDayRequirement 7 500 Strategy.cost true 2200 2800
        (fun _ => some (0, 0))).remainingPackages = some 500 :=
  ⟨by decide, by decide, by decide,
    (c2_remaining_is_clamped_deficit 7 500 Strategy.cost true 2200 2800
      (fun _ => some (0, 0)) (by decide) (by decide) (by decide)).2.2.2.2.2⟩

/-- C10: on a day with positive packages, positive capacities and no override
for that day, the heuristic recommendation always covers the demand under
both strategies and both settings of the large-truck toggle:
`totalCapacity = regularTrucks * regularCapacity +
largeTrucks * largeCapacityMax ≥ packages`, hence the emitted
`remainingPackages` is 0. -/
theorem c10_heuristic_always_covers (day p : ℕ) (strategy : Strategy)
    (ul : Bool) (rc lcm : ℕ) (manualAssignments : ℕ → Option (ℕ × ℕ))
    (hp : 0 < p) (hrc : 0 < rc) (hlcm : 0 < lcm)
    (hnone : manualAssignments day = none) :
    ((calculateDayRequirement day p strategy ul rc lcm
        manualAssignments).totalCapacity =
      (calculateDayRequirement day p strategy ul rc lcm
        manualAssignments).regularTrucks * rc +
      (calculateDayRequirement day p strategy ul rc lcm
        manualAssignments).largeTrucks * lcm) ∧
    p ≤ (calculateDayRequirement day p strategy ul rc lcm
        manualAssignments).totalCapacity ∧
    (calculateDayRequirement day p strategy ul rc lcm
        manualAssignments).remainingPackages = some 0 := by
  have hne : ¬ (p = 0) := by omega
  have hcover : p ≤ (match strategy with
      | Strategy.cost => costAlloc p rc lcm ul
      | Strategy.capacity => capacityAlloc p rc lcm ul).1 * rc +
      (match strategy with
      | Strategy.cost => costAlloc p rc lcm ul
      | Strategy.capacity => capacityAlloc p rc lcm ul).2 * lcm := by
    cases strategy
    · exact costAlloc_covers p rc lcm ul hrc
    · exact capacityAlloc_covers p rc lcm ul hrc hlcm
  refine ⟨?_, ?_, ?_⟩
  · simp [calculateDayRequirement, hne, hnone]
  · simp only [calculateDayRequirement, hne, if_false]
    simpa using hcover
  · simp only [calculateDayRequirement, hne, if_false]
    simp [hnone, Nat.sub_eq_zero_of_le]
    cases strategy
    · exact Nat.sub_eq_zero_of_le (costAlloc_covers p rc lcm ul hrc)
    · exact Nat.sub_eq_zero_of_le (capacityAlloc_covers p rc lcm ul hrc hlcm)

/-- Witness for C10 at `packages = 3000`, capacities 2200/2800, cost
strategy, no override. -/
theorem c10_witness :
    0 < 3000 ∧ 0 < 2200 ∧ 0 < 2800 ∧ (fun (_ : ℕ) => (none : Option (ℕ × ℕ))) 1 = none ∧
      (3000 ≤ (calculateDayRequirement 1 3000 Strategy.cost true 2200 2800
        (fun _ => none)).totalCapacity ∧
       (calculateDayRequirement 1 3000 Strategy.cost true 2200 2800
        (fun _ => none)).remainingPackages = some 0) :=
  ⟨by decide, by decide, by decide, rfl,
    (c10_heuristic_always_covers 1 3000 Strategy.cost true 2200 2800
      (fun _ => none) (by decide) (by decide) (by decide) rfl).2⟩

/-! ### Forecast-side helper lemmas -/

/-- JavaScript `Math.round` is monotone. -/
theorem jsRound_mono {x y : ℚ} (h : x ≤ y) : jsRound x ≤ jsRound y :=
  Int.floor_le_floor (by linarith)

/-- Rounding an integer value is the identity. -/
theorem jsRound_natCast (v : ℕ) : jsRound (v : ℚ) = v := by
  unfold jsRound
  rw [Int.floor_eq_iff]
  constructor <;> push_cast <;> linarith

/-- Every value collected into `allValues` is positive. -/
theorem allValuesOf_pos (historical : List (List DailyData))
    (historicalMeta : List MonthMeta) (filter : DayTypeFilter) :
    ∀ v ∈ allValuesOf historical historicalMeta filter, 0 < v := by
  intro v hv
  unfold allValuesOf at hv
  rw [List.mem_filter] at hv
  exact of_decide_eq_true hv.2

/-- The overall average of the positive historical values is nonnegative. -/
theorem overallAverageOf_nonneg (historical : List (List DailyData))
    (historicalMeta : List MonthMeta) (filter : DayTypeFilter) :
    0 ≤ overallAverageOf historical historicalMeta filter := by
  simp only [overallAverageOf]
  split_ifs with h
  · apply div_nonneg
    · exact List.sum_nonneg fun v hv =>
        (allValuesOf_pos historical historicalMeta filter v hv).le
    · positivity
  · exact le_refl 0

/-- The standard deviation is nonnegative whenever the square-root function
is nonnegative on nonnegative inputs. -/
theorem stdDevOf_nonneg (sqrtFn : ℚ → ℚ)
    (hsqrt : ∀ x : ℚ, 0 ≤ x → 0 ≤ sqrtFn x)
    (historical : List (List DailyData)) (historicalMeta : List MonthMeta)
    (filter : DayTypeFilter) :
    0 ≤ stdDevOf sqrtFn historical historicalMeta filter := by
  simp only [stdDevOf]
  split_ifs with h
  · apply hsqrt
    apply div_nonneg
    · apply List.sum_nonneg
      intro x hx
      rw [List.mem_map] at hx
      obtain ⟨v, _, rfl⟩ := hx
      positivity
    · positivity
  · exact mul_nonneg
      (overallAverageOf_nonneg historical historicalMeta filter) (by norm_num)

/-- The three rounded fields of an emitted point are ordered whenever the
standard deviation is nonnegative. -/
theorem mkForecastPoint_ordered (d : ℕ) (fv s : ℚ) (hs : 0 ≤ s) :
    (mkForecastPoint d fv s).forecastMin ≤ (mkForecastPoint d fv s).forecast ∧
      (mkForecastPoint d fv s).forecast ≤ (mkForecastPoint d fv s).forecastMax := by
  constructor
  · exact Int.toNat_le_toNat (jsRound_mono (by linarith))
  · exact Int.toNat_le_toNat (jsRound_mono (by linarith))

/-- C3: every point emitted by `calculateForecast` satisfies
`forecastMin ≤ forecast ≤ forecastMax`; the three fields are natural numbers
(`Math.max(0, Math.round(...))`), hence nonnegative integers by type. -/
theorem c3_forecast_points_ordered (sqrtFn : ℚ → ℚ)
    (hsqrt : ∀ x : ℚ, 0 ≤ x → 0 ≤ sqrtFn x)
    (historical : List (List DailyData)) (historicalMeta : List MonthMeta)
    (filter : DayTypeFilter) (targetYear targetMonth : ℕ) :
    ∀ pt ∈ calculateForecast sqrtFn historical historicalMeta filter
        targetYear targetMonth,
      pt.forecastMin ≤ pt.forecast ∧ pt.forecast ≤ pt.forecastMax := by
  intro pt hpt
  unfold calculateForecast at hpt
  split_ifs at hpt with h
  · simp at hpt
  · rw [List.mem_map] at hpt
    obtain ⟨d, _, rfl⟩ := hpt
    exact mkForecastPoint_ordered _ _ _
      (stdDevOf_nonneg sqrtFn hsqrt historical historicalMeta filter)

/-- Witness for C3 with the zero square-root function and a one-batch
history. -/
theorem c3_witness :
    (∀ x : ℚ, 0 ≤ x → 0 ≤ (fun (_ : ℚ) => (0 : ℚ)) x) ∧
      (∀ pt ∈ calculateForecast (fun _ => 0)
          [[{ day := 1, value := 5 }]] [{ year := 2025, month := 10 }]
          DayTypeFilter.all 2025 11,
        pt.forecastMin ≤ pt.forecast ∧ pt.forecast ≤ pt.forecastMax) :=
  ⟨fun _ _ => le_refl 0,
    c3_forecast_points_ordered (fun _ => 0) (fun _ _ => le_refl 0)
      [[{ day := 1, value := 5 }]] [{ year := 2025, month := 10 }]
      DayTypeFilter.all 2025 11⟩

/-- C4: for every non-empty historical input the days of the emitted points
are exactly the days `1..daysInMonth` of the target month that match the
day-type filter, in increasing order, one point per matching day; for an
empty historical input the output is empty.  In particular November 2025 with
the weekday filter emits exactly the twenty non-weekend days, so days
1, 2, 8, 9, 15, 16, 22, 23, 29, 30 are absent. -/
theorem c4_forecast_day_structure :
    (∀ (sqrtFn : ℚ → ℚ) (historical : List (List DailyData))
        (historicalMeta : List MonthMeta) (filter : DayTypeFilter)
        (targetYear targetMonth : ℕ),
      historical ≠ [] → 100 ≤ targetYear → 1 ≤ targetMonth → targetMonth ≤ 12 →
      (calculateForecast sqrtFn historical historicalMeta filter
          targetYear targetMonth).map (fun pt => pt.day)
        = (List.range' 1 (daysInMonth targetYear targetMonth)).filter
            (fun d => matchesDayType filter targetYear targetMonth d)) ∧
    (∀ (sqrtFn : ℚ → ℚ) (historicalMeta : List MonthMeta)
        (filter : DayTypeFilter) (targetYear targetMonth : ℕ),
      calculateForecast sqrtFn [] historicalMeta filter targetYear targetMonth
        = []) ∧
    ((calculateForecast (fun _ => 0) [[{ day := 1, value := 5 }]]
        [{ year := 2025, month := 10 }] DayTypeFilter.weekday 2025 11).map
        (fun pt => pt.day)
      = [3, 4, 5, 6, 7, 10, 11, 12, 13, 14, 17, 18, 19, 20, 21,
         24, 25, 26, 27, 28]) := by
  have hmap : ∀ (sqrtFn : ℚ → ℚ) (historical : List (List DailyData))
      (historicalMeta : List MonthMeta) (filter : DayTypeFilter)
      (targetYear targetMonth : ℕ), historical ≠ [] →
      (calculateForecast sqrtFn historical historicalMeta filter
          targetYear targetMonth).map (fun pt => pt.day)
        = (List.range' 1 (daysInMonth targetYear targetMonth)).filter
            (fun d => matchesDayType filter targetYear targetMonth d) := by
    intro sqrtFn historical historicalMeta filter ty tm hne
    unfold calculateForecast
    rw [if_neg (by simpa using hne)]
    rw [List.map_map]
    have : ((fun pt => ForecastPoint.day pt) ∘ fun day =>
        mkForecastPoint day
          (forecastValueAt historical historicalMeta filter ty tm day)
          (stdDevOf sqrtFn historical historicalMeta filter)) = fun d => d := by
      funext d
      rfl
    rw [this, List.map_id']
  refine ⟨fun sqrtFn h m f ty tm hne _ _ _ => hmap sqrtFn h m f ty tm hne,
    fun sqrtFn m f ty tm => by simp [calculateForecast], ?_⟩
  rw [hmap (fun _ => 0) [[{ day := 1, value := 5 }]]
    [{ year := 2025, month := 10 }] DayTypeFilter.weekday 2025 11 (by simp)]
  decide

/-- Witness for C4 at the November 2025 weekday instance. -/
theorem c4_witness :
    ([[({ day := 1, value := 5 } : DailyData)]] ≠ ([] : List (List DailyData))) ∧
    100 ≤ 2025 ∧ 1 ≤ 11 ∧ 11 ≤ 12 ∧
      ((calculateForecast (fun _ => 0) [[{ day := 1, value := 5 }]]
          [{ year := 2025, month := 10 }] DayTypeFilter.weekday 2025 11).map
          (fun pt => pt.day)
        = (List.range' 1 (daysInMonth 2025 11)).filter
            (fun d => matchesDayType DayTypeFilter.weekday 2025 11 d)) :=
  ⟨by simp, by decide, by decide, by decide,
    c4_forecast_day_structure.1 (fun _ => 0) [[{ day := 1, value := 5 }]]
      [{ year := 2025, month := 10 }] DayTypeFilter.weekday 2025 11
      (by simp) (by decide) (by decide) (by decide)⟩

/-! ### Constant-history lemmas for the flat-forecast claim -/

/-- The average of a nonempty constant list is that constant. -/
theorem avg_const (l : List ℚ) (c : ℚ) (hne : l ≠ []) (h : ∀ x ∈ l, x = c) :
    l.sum / (l.length : ℚ) = c := by
  rw [List.sum_eq_card_nsmul l c h, nsmul_eq_mul]
  have hlen : (l.length : ℚ) ≠ 0 := by
    exact_mod_cast (List.length_pos.mpr hne).ne'
  field_simp

/-- Closed form for the weighted fold on a constant list. -/
theorem weightedSumFrom_const (c : ℚ) (l : List ℚ) :
    ∀ i : ℕ, (∀ x ∈ l, x = c) →
      weightedSumFrom i l =
        c * ((l.length : ℚ) * i +
          (l.length : ℚ) * ((l.length : ℚ) + 1) / 2) := by
  induction l with
  | nil => intro i h; simp [weightedSumFrom]
  | cons v vs ih =>
      intro i h
      have hv : v = c := h v (by simp)
      rw [weightedSumFrom, hv,
        ih (i + 1) (fun x hx => h x (List.mem_cons_of_mem v hx))]
      rw [List.length_cons]
      push_cast
      ring

/-- When every filtered month is nonempty with all values `v > 0`, every
monthly average equals `v`. -/
theorem monthlyAveragesOf_const (historical : List (List DailyData))
    (historicalMeta : List MonthMeta) (filter : DayTypeFilter) (v : ℚ)
    (hv : 0 < v)
    (hconst : ∀ md ∈ filteredHistoricalOf historical historicalMeta filter,
      md ≠ [] ∧ ∀ d ∈ md, d.value = v) :
    ∀ x ∈ monthlyAveragesOf historical historicalMeta filter, x = v := by
  intro x hx
  simp only [monthlyAveragesOf] at hx
  rw [List.mem_map] at hx
  obtain ⟨md, hmd, rfl⟩ := hx
  obtain ⟨hne, hall⟩ := hconst md hmd
  have hmem : ∀ y ∈ (md.map (fun d => d.value)).filter
      (fun w => decide (0 < w)), y = v := by
    intro y hy
    rw [List.mem_filter] at hy
    obtain ⟨hy1, _⟩ := hy
    rw [List.mem_map] at hy1
    obtain ⟨d, hd, rfl⟩ := hy1
    exact hall d hd
  have hvne : (md.map (fun d => d.value)).filter
      (fun w => decide (0 < w)) ≠ [] := by
    obtain ⟨d0, hd0⟩ := List.exists_mem_of_ne_nil md hne
    have hd0v : d0.value = v := hall d0 hd0
    have : d0.value ∈ (md.map (fun d => d.value)).filter
        (fun w => decide (0 < w)) := by
      refine List.mem_filter.mpr ⟨List.mem_map_of_mem _ hd0, ?_⟩
      rw [hd0v]
      exact decide_eq_true hv
    exact List.ne_nil_of_mem this
  rw [if_pos (List.length_pos.mpr hvne)]
  exact avg_const _ v hvne hmem

/-- Filtering a nonempty batch list keeps it nonempty. -/
theorem filteredHistoricalOf_ne_nil (historical : List (List DailyData))
    (historicalMeta : List MonthMeta) (filter : DayTypeFilter)
    (h : historical ≠ []) :
    filteredHistoricalOf historical historicalMeta filter ≠ [] := by
  cases historical with
  | nil => exact absurd rfl h
  | cons md hs => cases historicalMeta <;> simp [filteredHistoricalOf]

/-- When every filtered month is nonempty with all values `v > 0`, the
collected `allValues` are all `v` and nonempty. -/
theorem allValuesOf_const (historical : List (List DailyData))
    (historicalMeta : List MonthMeta) (filter : DayTypeFilter) (v : ℚ)
    (hv : 0 < v) (hne : historical ≠ [])
    (hconst : ∀ md ∈ filteredHistoricalOf historical historicalMeta filter,
      md ≠ [] ∧ ∀ d ∈ md, d.value = v) :
    (∀ x ∈ allValuesOf historical historicalMeta filter, x = v) ∧
      allValuesOf historical historicalMeta filter ≠ [] := by
  constructor
  · intro x hx
    simp only [allValuesOf] at hx
    rw [List.mem_filter] at hx
    obtain ⟨hx1, _⟩ := hx
    rw [List.mem_map] at hx1
    obtain ⟨d, hd, rfl⟩ := hx1
    rw [List.mem_flatten] at hd
    obtain ⟨md, hmd, hdmd⟩ := hd
    exact (hconst md hmd).2 d hdmd
  · obtain ⟨md0, hmd0⟩ := List.exists_mem_of_ne_nil _
      (filteredHistoricalOf_ne_nil historical historicalMeta filter hne)
    obtain ⟨hmdne, hall⟩ := hconst md0 hmd0
    obtain ⟨d0, hd0⟩ := List.exists_mem_of_ne_nil md0 hmdne
    have : d0.value ∈ allValuesOf historical historicalMeta filter := by
      simp only [allValuesOf]
      refine List.mem_filter.mpr
        ⟨List.mem_map_of_mem _ (List.mem_flatten.mpr ⟨md0, hmd0, hd0⟩), ?_⟩
      rw [hall d0 hd0]
      exact decide_eq_true hv
    exact List.ne_nil_of_mem this

/-- With nonempty constant filtered history the overall average is `v`. -/
theorem overallAverageOf_const (historical : List (List DailyData))
    (historicalMeta : List MonthMeta) (filter : DayTypeFilter) (v : ℚ)
    (hv : 0 < v) (hne : historical ≠ [])
    (hconst : ∀ md ∈ filteredHistoricalOf historical historicalMeta filter,
      md ≠ [] ∧ ∀ d ∈ md, d.value = v) :
    overallAverageOf historical historicalMeta filter = v := by
  obtain ⟨hmem, hvne⟩ :=
    allValuesOf_const historical historicalMeta filter v hv hne hconst
  simp only [overallAverageOf]
  rw [if_pos (List.length_pos.mpr hvne)]
  exact avg_const _ v hvne hmem

/-- Constant monthly averages have zero least-squares slope. -/
theorem trendOf_const (historical : List (List DailyData))
    (historicalMeta : List MonthMeta) (filter : DayTypeFilter) (c : ℚ)
    (h : ∀ x ∈ monthlyAveragesOf historical historicalMeta filter, x = c) :
    trendOf historical historicalMeta filter = 0 := by
  simp only [trendOf]
  split_ifs with hlen
  · rw [List.sum_eq_card_nsmul _ c h, nsmul_eq_mul,
      weightedSumFrom_const c _ 0 h]
    rw [div_eq_zero_iff]
    left
    push_cast
    ring
  · rfl

/-- All values collected for one day-of-week key are `v` under the constant
hypothesis. -/
theorem dayOfWeekValuesOf_const (historical : List (List DailyData))
    (historicalMeta : List MonthMeta) (filter : DayTypeFilter) (v : ℚ)
    (hconst : ∀ md ∈ filteredHistoricalOf historical historicalMeta filter,
      md ≠ [] ∧ ∀ d ∈ md, d.value = v) (dow : ℕ) :
    ∀ x ∈ dayOfWeekValuesOf historical historicalMeta filter dow, x = v := by
  intro x hx
  simp only [dayOfWeekValuesOf] at hx
  rw [List.mem_flatten] at hx
  obtain ⟨vs, hvs, hxvs⟩ := hx
  rw [List.mem_map] at hvs
  obtain ⟨p, hp, rfl⟩ := hvs
  obtain ⟨md, mt⟩ := p
  have hp1 : md ∈ filteredHistoricalOf historical historicalMeta filter :=
    (List.of_mem_zip hp).1
  simp only [dowMonthValues] at hxvs
  rw [List.mem_filterMap] at hxvs
  obtain ⟨d, hd, hsome⟩ := hxvs
  by_cases hc : jsGetDay mt.year mt.month d.day = dow ∧ 0 < d.value
  · rw [if_pos hc] at hsome
    have hx : d.value = x := Option.some_inj.mp hsome
    rw [← hx]
    exact (hconst md hp1).2 d hd
  · rw [if_neg hc] at hsome
    exact absurd hsome (by simp)

/-- Under a constant history the blended forecast value for any target day
is `v`. -/
theorem forecastValueAt_const (historical : List (List DailyData))
    (historicalMeta : List MonthMeta) (filter : DayTypeFilter)
    (targetYear targetMonth d : ℕ) (v : ℚ)
    (hOA : overallAverageOf historical historicalMeta filter = v)
    (hT : trendOf historical historicalMeta filter = 0)
    (hdow : ∀ dow, ∀ x ∈ dayOfWeekValuesOf historical historicalMeta filter
      dow, x = v) :
    forecastValueAt historical historicalMeta filter
      targetYear targetMonth d = v := by
  simp only [forecastValueAt, baseForecastOf, hOA, hT]
  split_ifs with h
  · have havg : dayOfWeekAverageOf historical historicalMeta filter
        (jsGetDay targetYear targetMonth d) = v := by
      simp only [dayOfWeekAverageOf]
      split_ifs with hlen
      · exact avg_const _ v (List.length_pos.mp hlen) (hdow _)
      · exact hOA
    rw [havg]
    ring
  · ring

/-- C8 (amended): for a non-empty historical input in which, after the
day-type filter, every batch still contains at least one observation and all
observations carry the same positive integer value `v`, the forecast is flat:
`overallAverage = v`, `trend = 0`, and every emitted point has
`forecast = round(v) = v`.  (The amendment adds the per-batch nonemptiness
requirement after filtering; without it a batch that the filter empties
contributes a zero monthly average and a nonzero trend, see the
counterexample.) -/
theorem c8_constant_history_flat_forecast (sqrtFn : ℚ → ℚ)
    (historical : List (List DailyData)) (historicalMeta : List MonthMeta)
    (filter : DayTypeFilter) (targetYear targetMonth : ℕ) (v : ℕ)
    (hv : 0 < v) (hne : historical ≠ [])
    (hconst : ∀ md ∈ filteredHistoricalOf historical historicalMeta filter,
      md ≠ [] ∧ ∀ d ∈ md, d.value = (v : ℚ)) :
    overallAverageOf historical historicalMeta filter = (v : ℚ) ∧
    trendOf historical historicalMeta filter = 0 ∧
    ∀ pt ∈ calculateForecast sqrtFn historical historicalMeta filter
        targetYear targetMonth, pt.forecast = v := by
  have hvq : (0 : ℚ) < (v : ℚ) := by exact_mod_cast hv
  have hOA := overallAverageOf_const historical historicalMeta filter
    (v : ℚ) hvq hne hconst
  have hT := trendOf_const historical historicalMeta filter (v : ℚ)
    (monthlyAveragesOf_const historical historicalMeta filter (v : ℚ)
      hvq hconst)
  refine ⟨hOA, hT, ?_⟩
  intro pt hpt
  unfold calculateForecast at hpt
  split_ifs at hpt with h
  · simp at hpt
  · rw [List.mem_map] at hpt
    obtain ⟨d, _, rfl⟩ := hpt
    have hfv : forecastValueAt historical historicalMeta filter
        targetYear targetMonth d = (v : ℚ) :=
      forecastValueAt_const historical historicalMeta filter
        targetYear targetMonth d (v : ℚ) hOA hT
        (fun dow => dayOfWeekValuesOf_const historical historicalMeta filter
          (v : ℚ) hconst dow)
    show (jsRound (forecastValueAt historical historicalMeta filter
        targetYear targetMonth d)).toNat = v
    rw [hfv, jsRound_natCast, Int.toNat_natCast]

/-- Witness for the amended C8 with a single October 2025 batch of constant
value 5, forecasting November 2025. -/
theorem c8_witness :
    0 < 5 ∧ ([[({ day := 1, value := 5 } : DailyData)]] ≠ []) ∧
      (∀ md ∈ filteredHistoricalOf [[{ day := 1, value := 5 }]]
          [{ year := 2025, month := 10 }] DayTypeFilter.all,
        md ≠ [] ∧ ∀ d ∈ md, d.value = ((5 : ℕ) : ℚ)) ∧
      (overallAverageOf [[{ day := 1, value := 5 }]]
          [{ year := 2025, month := 10 }] DayTypeFilter.all = ((5 : ℕ) : ℚ) ∧
       trendOf [[{ day := 1, value := 5 }]]
          [{ year := 2025, month := 10 }] DayTypeFilter.all = 0 ∧
       ∀ pt ∈ calculateForecast (fun _ => 0) [[{ day := 1, value := 5 }]]
          [{ year := 2025, month := 10 }] DayTypeFilter.all 2025 11,
        pt.forecast = 5) := by
  have hconst : ∀ md ∈ filteredHistoricalOf [[{ day := 1, value := 5 }]]
      [{ year := 2025, month := 10 }] DayTypeFilter.all,
      md ≠ [] ∧ ∀ d ∈ md, d.value = ((5 : ℕ) : ℚ) := by
    intro md hmd
    simp only [filteredHistoricalOf, filterByDayType, List.mem_singleton]
      at hmd
    subst hmd
    refine ⟨by simp, ?_⟩
    intro d hd
    simp only [List.mem_singleton] at hd
    subst hd
    norm_num
  exact ⟨by decide, by simp, hconst,
    c8_constant_history_flat_forecast (fun _ => 0)
      [[{ day := 1, value := 5 }]] [{ year := 2025, month := 10 }]
      DayTypeFilter.all 2025 11 5 (by decide) (by simp) hconst⟩

/-- C8 (counterexample to the claim as stated): the input
`[[{day 1, value 5}], []]` is a non-empty historical batch list whose every
observation (after the trivial `all` filter) has the same positive value 5,
yet the trend is `-5`, not 0: the empty second batch contributes a zero
monthly average, so the conclusion `trend = 0` of the claim fails. -/
theorem c8_counterexample_empty_batch :
    ([[({ day := 1, value := 5 } : DailyData)], []] ≠
      ([] : List (List DailyData))) ∧
    (∀ md ∈ filteredHistoricalOf [[{ day := 1, value := 5 }], []]
        [{ year := 2025, month := 9 }, { year := 2025, month := 10 }]
        DayTypeFilter.all,
      ∀ d ∈ md, d.value = 5) ∧
    overallAverageOf [[{ day := 1, value := 5 }], []]
      [{ year := 2025, month := 9 }, { year := 2025, month := 10 }]
      DayTypeFilter.all = 5 ∧
    trendOf [[{ day := 1, value := 5 }], []]
      [{ year := 2025, month := 9 }, { year := 2025, month := 10 }]
      DayTypeFilter.all = -5 := by
  have hall : ∀ md ∈ filteredHistoricalOf [[{ day := 1, value := 5 }], []]
      [{ year := 2025, month := 9 }, { year := 2025, month := 10 }]
      DayTypeFilter.all, ∀ d ∈ md, d.value = (5 : ℚ) := by
    intro md hmd d hd
    simp only [filteredHistoricalOf, filterByDayType, List.mem_cons,
      List.mem_singleton] at hmd
    rcases hmd with rfl | rfl | hmd
    · simp only [List.mem_singleton] at hd
      subst hd
      rfl
    · simp at hd
    · simp at hmd
  have h1 : allValuesOf [[{ day := 1, value := 5 }], []]
      [{ year := 2025, month := 9 }, { year := 2025, month := 10 }]
      DayTypeFilter.all = [5] := by
    norm_num [allValuesOf, filteredHistoricalOf, filterByDayType]
  have h2 : monthlyAveragesOf [[{ day := 1, value := 5 }], []]
      [{ year := 2025, month := 9 }, { year := 2025, month := 10 }]
      DayTypeFilter.all = [5, 0] := by
    norm_num [monthlyAveragesOf, filteredHistoricalOf, filterByDayType]
  refine ⟨by simp, hall, ?_, ?_⟩
  · simp only [overallAverageOf, h1]
    norm_num
  · simp only [trendOf, h2]
    norm_num [weightedSumFrom]
